import Mathlib

/-!
# A shallow embedding of the `cmyui/chess` game engine

This file embeds the chess rules and game-state engine of the repository
(`src/app/chess.py`, the game-logic core of `src/app/api/v1/chess.py`, and
the serialization codec of `src/app/repositories/chess_games.py`) into Lean
and proves the specification's claims about it.

Modelling conventions:
* Python `FileType`/`RankType` string literals become the inductive types
  `FileType`/`RankType`; `ord`/`int` conversions on the underlying characters
  become `fileOrd`/`rankInt`.
* A Python `dict[BoardSquare, ChessPiece]` is a finite partial map; since the
  key space has 64 elements we embed it as a total function
  `BoardSquare → Option ChessPiece`.  Python dict equality is key-value
  equality (insertion order is irrelevant to `==`), which is exactly
  pointwise equality of these functions.
* `UUID` values are only ever created externally, compared for equality, and
  converted to/from their canonical text form; we embed them as `String`.
* Mutating methods become functions returning the updated value.
-/

/-- The eight board files `A`..`H` (`FileType` in `src/app/chess.py`). -/
inductive FileType where
  | A | B | C | D | E | F | G | H
deriving DecidableEq, Fintype

/-- The eight board ranks `1`..`8` (`RankType` in `src/app/chess.py`). -/
inductive RankType where
  | R1 | R2 | R3 | R4 | R5 | R6 | R7 | R8
deriving DecidableEq, Fintype

/-- `ord` of the file's character, as used by the move-shape arithmetic
(`ord("A") = 65`, ..., `ord("H") = 72`). -/
def fileOrd : FileType → Nat
  | .A => 65 | .B => 66 | .C => 67 | .D => 68
  | .E => 69 | .F => 70 | .G => 71 | .H => 72

/-- The file's character, for the `f"{file}{rank}"` text rendering. -/
def fileChar : FileType → Char
  | .A => 'A' | .B => 'B' | .C => 'C' | .D => 'D'
  | .E => 'E' | .F => 'F' | .G => 'G' | .H => 'H'

/-- `int` of the rank's digit, as used by the move-shape arithmetic. -/
def rankInt : RankType → Nat
  | .R1 => 1 | .R2 => 2 | .R3 => 3 | .R4 => 4
  | .R5 => 5 | .R6 => 6 | .R7 => 7 | .R8 => 8

/-- The rank's character, for the `f"{file}{rank}"` text rendering. -/
def rankChar : RankType → Char
  | .R1 => '1' | .R2 => '2' | .R3 => '3' | .R4 => '4'
  | .R5 => '5' | .R6 => '6' | .R7 => '7' | .R8 => '8'

/-- Membership test `input in VALID_FILES` followed by the `Literal` typing:
maps a character to the file it denotes, or `none`. -/
def charToFile (c : Char) : Option FileType :=
  if c = 'A' then some .A else if c = 'B' then some .B
  else if c = 'C' then some .C else if c = 'D' then some .D
  else if c = 'E' then some .E else if c = 'F' then some .F
  else if c = 'G' then some .G else if c = 'H' then some .H
  else none

/-- Membership test `input in VALID_RANKS` followed by the `Literal` typing. -/
def charToRank (c : Char) : Option RankType :=
  if c = '1' then some .R1 else if c = '2' then some .R2
  else if c = '3' then some .R3 else if c = '4' then some .R4
  else if c = '5' then some .R5 else if c = '6' then some .R6
  else if c = '7' then some .R7 else if c = '8' then some .R8
  else none

/-- `ChessPieceType` enum of `src/app/chess.py`. -/
inductive ChessPieceType where
  | KING | QUEEN | ROOK | BISHOP | KNIGHT | PAWN
deriving DecidableEq, Fintype

/-- The `.value` string of a `ChessPieceType` member. -/
def ChessPieceType.value : ChessPieceType → String
  | .KING => "KING" | .QUEEN => "QUEEN" | .ROOK => "ROOK"
  | .BISHOP => "BISHOP" | .KNIGHT => "KNIGHT" | .PAWN => "PAWN"

/-- `ChessPieceType(s)` enum construction: the member with value `s`,
or a `ValueError` (modelled as `none`). -/
def ChessPieceType.ofValue (s : String) : Option ChessPieceType :=
  if s = "KING" then some .KING else if s = "QUEEN" then some .QUEEN
  else if s = "ROOK" then some .ROOK else if s = "BISHOP" then some .BISHOP
  else if s = "KNIGHT" then some .KNIGHT else if s = "PAWN" then some .PAWN
  else none

/-- `ChessPieceColor` enum of `src/app/chess.py`. -/
inductive ChessPieceColor where
  | WHITE | BLACK
deriving DecidableEq, Fintype

/-- The `.value` string of a `ChessPieceColor` member. -/
def ChessPieceColor.value : ChessPieceColor → String
  | .WHITE => "WHITE" | .BLACK => "BLACK"

/-- `ChessPieceColor(s)` enum construction, `none` on `ValueError`. -/
def ChessPieceColor.ofValue (s : String) : Option ChessPieceColor :=
  if s = "WHITE" then some .WHITE
  else if s = "BLACK" then some .BLACK
  else none

/-- `ChessPiece` model of `src/app/chess.py`: a (type, color) pair. -/
structure ChessPiece where
  piece_type : ChessPieceType
  color : ChessPieceColor
deriving DecidableEq, Fintype

/-- `BoardSquare` model of `src/app/chess.py`: a (file, rank) pair. -/
structure BoardSquare where
  file : FileType
  rank : RankType
deriving DecidableEq, Fintype

/-- `BoardSquare.__repr__`: the canonical two-character text
rendering `f"{self.file}{self.rank}"`. -/
def reprSquare (sq : BoardSquare) : String :=
  ⟨[fileChar sq.file, rankChar sq.rank]⟩

/-- `Move` model of `src/app/chess.py`: source square, destination square,
and the piece being moved. -/
structure Move where
  square_from : BoardSquare
  square_to : BoardSquare
  chess_piece : ChessPiece
deriving DecidableEq, Fintype

/-- `abs(ord(a.file) - ord(b.file))` of the Python move-shape rules. -/
def fileDist (a b : BoardSquare) : Nat :=
  ((fileOrd a.file : Int) - (fileOrd b.file : Int)).natAbs

/-- `abs(int(a.rank) - int(b.rank))` of the Python move-shape rules. -/
def rankDist (a b : BoardSquare) : Nat :=
  ((rankInt a.rank : Int) - (rankInt b.rank : Int)).natAbs

/-- `ChessPiece._can_king_move`: at most one square in each direction. -/
def ChessPiece._can_king_move (_self : ChessPiece) (move : Move) : Bool :=
  fileDist move.square_from move.square_to ≤ 1
    && rankDist move.square_from move.square_to ≤ 1

/-- `ChessPiece._can_rook_move`: same file or same rank. -/
def ChessPiece._can_rook_move (_self : ChessPiece) (move : Move) : Bool :=
  move.square_from.file == move.square_to.file
    || move.square_from.rank == move.square_to.rank

/-- `ChessPiece._can_bishop_move`: equal file and rank distances. -/
def ChessPiece._can_bishop_move (_self : ChessPiece) (move : Move) : Bool :=
  fileDist move.square_from move.square_to
    == rankDist move.square_from move.square_to

/-- `ChessPiece._can_queen_move`: rook-shape or bishop-shape. -/
def ChessPiece._can_queen_move (self : ChessPiece) (move : Move) : Bool :=
  self._can_rook_move move || self._can_bishop_move move

/-- `ChessPiece._can_knight_move`: (1,2) or (2,1) file/rank distances.
The Python expression relies on `and` binding tighter than `or`. -/
def ChessPiece._can_knight_move (_self : ChessPiece) (move : Move) : Bool :=
  (fileDist move.square_from move.square_to == 1
      && rankDist move.square_from move.square_to == 2)
    || (fileDist move.square_from move.square_to == 2
      && rankDist move.square_from move.square_to == 1)

/-- `ChessPiece._can_pawn_move`: same file and (rank "2" to rank "4", or
rank "7" to rank "5", or rank distance 1), or a (1,1) diagonal step.
The Python code compares the rank characters; comparing the `RankType`
values is the same comparison. -/
def ChessPiece._can_pawn_move (_self : ChessPiece) (move : Move) : Bool :=
  (move.square_from.file == move.square_to.file
      && ((move.square_from.rank == RankType.R2
            && move.square_to.rank == RankType.R4)
        || (move.square_from.rank == RankType.R7
            && move.square_to.rank == RankType.R5)
        || rankDist move.square_from move.square_to == 1))
    || (fileDist move.square_from move.square_to == 1
      && rankDist move.square_from move.square_to == 1)

/-- `ChessPiece.can_make_move`: dispatch on the piece type. -/
def ChessPiece.can_make_move (self : ChessPiece) (move : Move) : Bool :=
  if self.piece_type = ChessPieceType.KING then self._can_king_move move
  else if self.piece_type = ChessPieceType.QUEEN then self._can_queen_move move
  else if self.piece_type = ChessPieceType.ROOK then self._can_rook_move move
  else if self.piece_type = ChessPieceType.BISHOP then self._can_bishop_move move
  else if self.piece_type = ChessPieceType.KNIGHT then self._can_knight_move move
  else if self.piece_type = ChessPieceType.PAWN then self._can_pawn_move move
  else false

/-- `ChessBoard` model: the `pieces` dict as a finite partial map on the
64-element square space.  Pointwise equality of the map is Python dict
equality. -/
structure ChessBoard where
  pieces : BoardSquare → Option ChessPiece

instance : DecidableEq ChessBoard := fun a b =>
  decidable_of_iff (∀ sq, a.pieces sq = b.pieces sq)
    ⟨fun h => congrArg ChessBoard.mk (funext h), fun h sq => by rw [h]⟩

/-- `ChessBoard.set_piece`: `self.pieces[square] = piece` (upsert). -/
def ChessBoard.set_piece (self : ChessBoard) (square : BoardSquare)
    (piece : ChessPiece) : ChessBoard :=
  ⟨fun sq => if sq = square then some piece else self.pieces sq⟩

/-- `ChessBoard.remove_piece`: `del self.pieces[square]`.  The Python `del`
raises `KeyError` when the square is empty; the engine only calls it after
checking occupancy, and on an empty square this embedding is a no-op. -/
def ChessBoard.remove_piece (self : ChessBoard) (square : BoardSquare) :
    ChessBoard :=
  ⟨fun sq => if sq = square then none else self.pieces sq⟩

/-- `ChessBoard.is_square_occupied`: `square in self.pieces`. -/
def ChessBoard.is_square_occupied (self : ChessBoard)
    (square : BoardSquare) : Bool :=
  (self.pieces square).isSome

/-- `ChessBoard.get_piece_on_square`: `self.pieces.get(square)`. -/
def ChessBoard.get_piece_on_square (self : ChessBoard)
    (square : BoardSquare) : Option ChessPiece :=
  self.pieces square

/-- The 32 entries of the `STARTING_POSITION` dict literal of
`src/app/chess.py`, in source order. -/
def STARTING_POSITION_ENTRIES : List (BoardSquare × ChessPiece) := [
  (⟨.E, .R1⟩, ⟨.KING, .WHITE⟩),
  (⟨.D, .R1⟩, ⟨.QUEEN, .WHITE⟩),
  (⟨.A, .R1⟩, ⟨.ROOK, .WHITE⟩),
  (⟨.H, .R1⟩, ⟨.ROOK, .WHITE⟩),
  (⟨.C, .R1⟩, ⟨.BISHOP, .WHITE⟩),
  (⟨.F, .R1⟩, ⟨.BISHOP, .WHITE⟩),
  (⟨.B, .R1⟩, ⟨.KNIGHT, .WHITE⟩),
  (⟨.G, .R1⟩, ⟨.KNIGHT, .WHITE⟩),
  (⟨.A, .R2⟩, ⟨.PAWN, .WHITE⟩),
  (⟨.B, .R2⟩, ⟨.PAWN, .WHITE⟩),
  (⟨.C, .R2⟩, ⟨.PAWN, .WHITE⟩),
  (⟨.D, .R2⟩, ⟨.PAWN, .WHITE⟩),
  (⟨.E, .R2⟩, ⟨.PAWN, .WHITE⟩),
  (⟨.F, .R2⟩, ⟨.PAWN, .WHITE⟩),
  (⟨.G, .R2⟩, ⟨.PAWN, .WHITE⟩),
  (⟨.H, .R2⟩, ⟨.PAWN, .WHITE⟩),
  (⟨.E, .R8⟩, ⟨.KING, .BLACK⟩),
  (⟨.D, .R8⟩, ⟨.QUEEN, .BLACK⟩),
  (⟨.A, .R8⟩, ⟨.ROOK, .BLACK⟩),
  (⟨.H, .R8⟩, ⟨.ROOK, .BLACK⟩),
  (⟨.C, .R8⟩, ⟨.BISHOP, .BLACK⟩),
  (⟨.F, .R8⟩, ⟨.BISHOP, .BLACK⟩),
  (⟨.B, .R8⟩, ⟨.KNIGHT, .BLACK⟩),
  (⟨.G, .R8⟩, ⟨.KNIGHT, .BLACK⟩),
  (⟨.A, .R7⟩, ⟨.PAWN, .BLACK⟩),
  (⟨.B, .R7⟩, ⟨.PAWN, .BLACK⟩),
  (⟨.C, .R7⟩, ⟨.PAWN, .BLACK⟩),
  (⟨.D, .R7⟩, ⟨.PAWN, .BLACK⟩),
  (⟨.E, .R7⟩, ⟨.PAWN, .BLACK⟩),
  (⟨.F, .R7⟩, ⟨.PAWN, .BLACK⟩),
  (⟨.G, .R7⟩, ⟨.PAWN, .BLACK⟩),
  (⟨.H, .R7⟩, ⟨.PAWN, .BLACK⟩)]

/-- `STARTING_POSITION` as a square-to-piece map (the dict literal has no
duplicate keys, so first-match lookup agrees with the dict). -/
def STARTING_POSITION (sq : BoardSquare) : Option ChessPiece :=
  STARTING_POSITION_ENTRIES.lookup sq

/-- `ChessBoard.reset_to_starting_position`: replace the whole mapping with
a copy of `STARTING_POSITION`. -/
def ChessBoard.reset_to_starting_position (_self : ChessBoard) : ChessBoard :=
  ⟨STARTING_POSITION⟩

/-- `ChessGame` model of `src/app/chess.py` (`UUID` fields as `String`). -/
structure ChessGame where
  game_id : String
  board : ChessBoard
  move_history : List Move
  white_user_id : Option String
  black_user_id : Option String
  invite_secret : String
  next_turn : ChessPieceColor
deriving DecidableEq

/-- `ChessGame.move_piece`: remove the piece from the source square, place
it on the destination square, append the move, flip the turn.  The `none`
result models the `ValueError` raised when the source square is empty. -/
def ChessGame.move_piece (self : ChessGame) (move : Move) :
    Option ChessGame :=
  match self.board.get_piece_on_square move.square_from with
  | none => none
  | some piece =>
    some { self with
      board := (self.board.remove_piece move.square_from).set_piece
        move.square_to piece,
      move_history := self.move_history ++ [move],
      next_turn :=
        if self.next_turn = ChessPieceColor.BLACK then ChessPieceColor.WHITE
        else ChessPieceColor.BLACK }

/-- `ChessGame.get_user_color`: WHITE if the user holds the white slot,
BLACK if the black slot, else `none`. -/
def ChessGame.get_user_color (self : ChessGame) (user_id : String) :
    Option ChessPieceColor :=
  if self.white_user_id = some user_id then some ChessPieceColor.WHITE
  else if self.black_user_id = some user_id then some ChessPieceColor.BLACK
  else none

/-! ## The API-layer game logic (`src/app/api/v1/chess.py`)

The transport concerns of the handlers (HTTP envelope, authentication,
persistence) belong to external collaborators; the embedded functions below
keep exactly the game-logic portion, with the authenticated user id and the
freshly loaded game passed as arguments. -/

/-- `convert_input_to_board_square`: length check, file membership check,
rank membership check, then construction; `none` on any failure. -/
def convert_input_to_board_square (pos : String) : Option BoardSquare :=
  match pos.data with
  | [file, rank] =>
    match charToFile file, charToRank rank with
    | some f, some r => some ⟨f, r⟩
    | _, _ => none
  | _ => none

/-- The distinguishable failure kinds of the move endpoint
(`play_chess_move`, lines 221-283), one per failure response of the game
logic.  `PieceNotYours` is the response at lines 231-235, emitted when
`get_user_color` returns `None`; it is unreachable because the slot check
at lines 221-228 has already ensured the mover occupies a slot. -/
inductive MoveFailure where
  | NotAPlayer | PieceNotYours | NotYourTurn | EmptySquare
  | WrongColorPiece | SquareOccupied | IllegalShape
deriving DecidableEq

/-- The game-logic core of `play_chess_move` (spec operation
`attempt_move`), from the slot check at line 221 through the state update
at line 275, applied to a loaded game.  The result pairs the game to be
persisted back with the outcome; the outer `Option` models an uncaught
exception (the `ValueError` of `move_piece`), which never occurs. -/
def attempt_move (chess_game : ChessGame) (user_id : String)
    (square_from square_to : BoardSquare) :
    Option (ChessGame × Except MoveFailure Move) :=
  if chess_game.white_user_id ≠ some user_id
      ∧ chess_game.black_user_id ≠ some user_id then
    some (chess_game, .error .NotAPlayer)
  else
    match chess_game.get_user_color user_id with
    | none => some (chess_game, .error .PieceNotYours)
    | some user_color =>
      if user_color ≠ chess_game.next_turn then
        some (chess_game, .error .NotYourTurn)
      else
        match chess_game.board.get_piece_on_square square_from with
        | none => some (chess_game, .error .EmptySquare)
        | some chess_piece =>
          if chess_piece.color ≠ user_color then
            some (chess_game, .error .WrongColorPiece)
          else
            match chess_game.board.get_piece_on_square square_to with
            | some _ => some (chess_game, .error .SquareOccupied)
            | none =>
              let move : Move := ⟨square_from, square_to, chess_piece⟩
              if ¬ chess_piece.can_make_move move then
                some (chess_game, .error .IllegalShape)
              else
                match chess_game.move_piece move with
                | none => none
                | some updated => some (updated, .ok move)

/-- The distinguishable failure kinds of the join endpoint
(`join_chess_game`, lines 148-174). -/
inductive JoinFailure where
  | InvalidSecret | GameFull | AlreadyInGame
deriving DecidableEq

/-- The game-logic core of `join_chess_game` (spec operation `join`), from
the secret check at line 148 through the slot fill at lines 169-172. -/
def join (chess_game : ChessGame) (user_id : String)
    (invite_secret : String) : Except JoinFailure ChessGame :=
  if chess_game.invite_secret ≠ invite_secret then .error .InvalidSecret
  else if chess_game.white_user_id ≠ none ∧ chess_game.black_user_id ≠ none then
    .error .GameFull
  else if chess_game.white_user_id = some user_id
      ∨ chess_game.black_user_id = some user_id then
    .error .AlreadyInGame
  else if chess_game.white_user_id = none then
    .ok { chess_game with white_user_id := some user_id }
  else
    .ok { chess_game with black_user_id := some user_id }

/-- `create_chess_game` of `src/app/repositories/chess_games.py`: a fresh
game with the pydantic field defaults (empty board, empty history, WHITE to
move).  The randomly drawn `game_id` and `invite_secret` are parameters. -/
def create_chess_game (game_id : String) (white_user_id : Option String)
    (black_user_id : Option String) (invite_secret : String) : ChessGame :=
  { game_id := game_id
    board := ⟨fun _ => none⟩
    move_history := []
    white_user_id := white_user_id
    black_user_id := black_user_id
    invite_secret := invite_secret
    next_turn := ChessPieceColor.WHITE }

/-! ## The serialization codec (`src/app/repositories/chess_games.py`)

`serialize` builds a JSON object and passes it through `json.dumps`;
`deserialize` applies `json.loads` and rebuilds a game.  The
`dumps`/`loads` pair is the external JSON library, an exact inverse on the
values involved (strings, nulls, arrays, string-keyed objects), so the
codec is embedded at the JSON-value level: `JVal` is the JSON value
produced (object member order as in the source), and `deserialize`
consumes a `JVal`.  `JSONEncoder` of `src/app/json.py` renders a `UUID` as
its string, the identity in this embedding. -/

/-- JSON values produced and consumed by the codec. -/
inductive JVal where
  | null : JVal
  | str : String → JVal
  | arr : List JVal → JVal
  | obj : List (String × JVal) → JVal

/-- Dict lookup `obj[key]`; `none` models the `KeyError`. -/
def jGet (members : List (String × JVal)) (key : String) : Option JVal :=
  match members with
  | [] => none
  | (k, v) :: rest => if k = key then some v else jGet rest key

/-- The `{"piece_type": ..., "color": ...}` object for one piece. -/
def pieceToJson (piece : ChessPiece) : JVal :=
  .obj [("piece_type", .str piece.piece_type.value),
        ("color", .str piece.color.value)]

/-- `VALID_FILES` of `src/app/chess.py`. -/
def VALID_FILES : List FileType := [.A, .B, .C, .D, .E, .F, .G, .H]

/-- `VALID_RANKS` of `src/app/chess.py`. -/
def VALID_RANKS : List RankType := [.R1, .R2, .R3, .R4, .R5, .R6, .R7, .R8]

/-- A fixed enumeration of the 64 squares, used to iterate the board map
(the iteration order of the Python dict is irrelevant: JSON object member
order does not affect decoding). -/
def allSquares : List BoardSquare :=
  VALID_FILES.flatMap fun f => VALID_RANKS.map fun r => ⟨f, r⟩

/-- The `{repr(square): piece-json}` members for the occupied squares. -/
def boardPiecesJson (board : ChessBoard) : List (String × JVal) :=
  allSquares.filterMap fun sq =>
    (board.pieces sq).map fun piece => (reprSquare sq, pieceToJson piece)

/-- The history entry `{"square_from": ..., "square_to": ..., "chess_piece": ...}`. -/
def moveToJson (move : Move) : JVal :=
  .obj [("square_from", .str (reprSquare move.square_from)),
        ("square_to", .str (reprSquare move.square_to)),
        ("chess_piece", pieceToJson move.chess_piece)]

/-- A nullable `UUID` field: `None` becomes JSON null, a `UUID` its text. -/
def optUserToJson : Option String → JVal
  | none => .null
  | some user_id => .str user_id

/-- `serialize`: the JSON object built at lines 20-44 of
`src/app/repositories/chess_games.py`. -/
def serialize (chess_game : ChessGame) : JVal :=
  .obj [
    ("game_id", .str chess_game.game_id),
    ("board", .obj [("pieces", .obj (boardPiecesJson chess_game.board))]),
    ("move_history", .arr (chess_game.move_history.map moveToJson)),
    ("white_user_id", optUserToJson chess_game.white_user_id),
    ("black_user_id", optUserToJson chess_game.black_user_id),
    ("invite_secret", .str chess_game.invite_secret),
    ("next_turn", .str chess_game.next_turn.value)]

/-- `BoardSquare(file=k[0], rank=k[1])`: index into the key text (an
`IndexError` on a short key and a failed `Literal` validation both fail the
decode), characters past index 1 ignored as in the source. -/
def squareOfKey (key : String) : Option BoardSquare :=
  match key.data with
  | c0 :: c1 :: _ =>
    match charToFile c0, charToRank c1 with
    | some f, some r => some ⟨f, r⟩
    | _, _ => none
  | _ => none

/-- `ChessPiece(piece_type=ChessPieceType(...), color=ChessPieceColor(...))`
from a piece JSON object. -/
def pieceOfJson (v : JVal) : Option ChessPiece :=
  match v with
  | .obj members =>
    match jGet members "piece_type", jGet members "color" with
    | some (.str t), some (.str c) =>
      match ChessPieceType.ofValue t, ChessPieceColor.ofValue c with
      | some piece_type, some color => some ⟨piece_type, color⟩
      | _, _ => none
    | _, _ => none
  | _ => none

/-- The dict comprehension rebuilding `board.pieces`: entries are inserted
left to right, later keys overriding earlier ones as in a Python dict. -/
def piecesOfJson (acc : BoardSquare → Option ChessPiece) :
    List (String × JVal) → Option (BoardSquare → Option ChessPiece)
  | [] => some acc
  | (key, v) :: rest =>
    match squareOfKey key, pieceOfJson v with
    | some sq, some piece =>
      piecesOfJson (fun s => if s = sq then some piece else acc s) rest
    | _, _ => none

/-- One `move_history` entry rebuilt from its JSON object. -/
def moveOfJson (v : JVal) : Option Move :=
  match v with
  | .obj members =>
    match jGet members "square_from", jGet members "square_to",
        jGet members "chess_piece" with
    | some (.str sf), some (.str st), some pieceJson =>
      match squareOfKey sf, squareOfKey st, pieceOfJson pieceJson with
      | some square_from, some square_to, some chess_piece =>
        some ⟨square_from, square_to, chess_piece⟩
      | _, _, _ => none
    | _, _, _ => none
  | _ => none

/-- The `move_history` list comprehension: decode each entry in order,
failing on the first structurally invalid one. -/
def movesOfJson : List JVal → Option (List Move)
  | [] => some []
  | v :: rest =>
    match moveOfJson v, movesOfJson rest with
    | some m, some ms => some (m :: ms)
    | _, _ => none

/-- `UUID(obj[...]) if obj[...] else None`: JSON null and the empty string
are falsy and give `None`; a non-empty string is parsed as a `UUID`. -/
def userOfJson (v : JVal) : Option (Option String) :=
  match v with
  | .null => some none
  | .str s => if s = "" then some none else some (some s)
  | _ => none

/-- `deserialize`: lines 55-86 of `src/app/repositories/chess_games.py`;
`none` models the exceptions raised on structurally invalid input
(the spec failure kind `CorruptState`). -/
def deserialize (data : JVal) : Option ChessGame :=
  match data with
  | .obj members =>
    match jGet members "game_id", jGet members "board",
        jGet members "move_history", jGet members "white_user_id",
        jGet members "black_user_id", jGet members "invite_secret",
        jGet members "next_turn" with
    | some (.str game_id), some (.obj boardMembers), some (.arr historyJson),
        some whiteJson, some blackJson, some (.str invite_secret),
        some (.str turnStr) =>
      match jGet boardMembers "pieces" with
      | some (.obj pieceMembers) =>
        match piecesOfJson (fun _ => none) pieceMembers,
            movesOfJson historyJson, userOfJson whiteJson,
            userOfJson blackJson, ChessPieceColor.ofValue turnStr with
        | some pieces, some move_history, some white_user_id,
            some black_user_id, some next_turn =>
          some { game_id := game_id
                 board := ⟨pieces⟩
                 move_history := move_history
                 white_user_id := white_user_id
                 black_user_id := black_user_id
                 invite_secret := invite_secret
                 next_turn := next_turn }
        | _, _, _, _, _ => none
      | _ => none
    | _, _, _, _, _, _, _ => none
  | _ => none

/-! ## Concrete fixtures for witnesses and counterexamples -/

/-- A user id for the creator playing White. -/
def uWhite : String := "user-white"

/-- A game created by `uWhite` with desired color WHITE and then reset to
the starting position, as the `create_chess_game` endpoint does. -/
def freshGame : ChessGame :=
  let g := create_chess_game "game-1" (some uWhite) none "secret-1"
  { g with board := g.board.reset_to_starting_position }

/-! ## Specification-side definitions

These definitions transcribe the wording of `spec.md` (not the source) and
are compared with the source-derived definitions above in the refinement
theorems below. -/

/-- Spec 4.2, PAWN rule, transcribed from the spec's words: legal iff
either (a) same file and [(from rank "2" and to rank "4") or (from rank
"7" and to rank "5") or rank-distance 1], or (b) file-distance 1 and
rank-distance 1.  The spec notes the predicate never consults the pawn's
color, so this definition takes none. -/
def pawnShapeSpec (move : Move) : Prop :=
  (move.square_from.file = move.square_to.file ∧
    ((move.square_from.rank = RankType.R2 ∧ move.square_to.rank = RankType.R4)
      ∨ (move.square_from.rank = RankType.R7 ∧ move.square_to.rank = RankType.R5)
      ∨ rankDist move.square_from move.square_to = 1)) ∨
  (fileDist move.square_from move.square_to = 1
    ∧ rankDist move.square_from move.square_to = 1)

/-- Spec 4.4, `attempt_move` checks 1-6 in order, transcribed from the
spec's words: the kind of the first failing check, or `none` when every
check passes.  Check 1 (mover occupies a slot) is the same condition as
`get_user_color` returning a color. -/
def firstFailingCheck (game : ChessGame) (mover_user_id : String)
    (square_from square_to : BoardSquare) : Option MoveFailure :=
  match game.get_user_color mover_user_id with
  | none => some .NotAPlayer
  | some mover_color =>
    if mover_color ≠ game.next_turn then some .NotYourTurn
    else
      match game.board.get_piece_on_square square_from with
      | none => some .EmptySquare
      | some piece =>
        if piece.color ≠ mover_color then some .WrongColorPiece
        else if (game.board.get_piece_on_square square_to).isSome then
          some .SquareOccupied
        else if ¬ piece.can_make_move ⟨square_from, square_to, piece⟩ then
          some .IllegalShape
        else none

/-- The outcome of an `attempt_move` call reduced to its failure kind:
`some (some k)` for a failure of kind `k`, `some none` for success, and
`none` for an uncaught fault. -/
def outcomeKind :
    Option (ChessGame × Except MoveFailure Move) → Option (Option MoveFailure)
  | none => none
  | some (_, .error k) => some (some k)
  | some (_, .ok _) => some none

/-- Spec 4.4, `join`, transcribed from the spec's words: `InvalidSecret`
when the supplied secret differs, `GameFull` when both slots are occupied,
`AlreadyInGame` when the joining user occupies either slot, otherwise fill
whichever of white/black is empty (white checked first), changing nothing
else. -/
def joinSpec (game : ChessGame) (joining_user_id supplied_secret : String) :
    Except JoinFailure ChessGame :=
  if supplied_secret ≠ game.invite_secret then .error .InvalidSecret
  else if game.white_user_id.isSome ∧ game.black_user_id.isSome then
    .error .GameFull
  else if game.white_user_id = some joining_user_id
      ∨ game.black_user_id = some joining_user_id then
    .error .AlreadyInGame
  else if game.white_user_id = none then
    .ok { game with white_user_id := some joining_user_id }
  else
    .ok { game with black_user_id := some joining_user_id }

/-- The standard opening layout, transcribed from the spec's words: White's
back rank on rank 1 (rook, knight, bishop, queen at D, king at E, bishop,
knight, rook), White's pawns on rank 2, Black mirrored on ranks 8 and 7. -/
def backRankPiece : FileType → ChessPieceType
  | .A => .ROOK | .B => .KNIGHT | .C => .BISHOP | .D => .QUEEN
  | .E => .KING | .F => .BISHOP | .G => .KNIGHT | .H => .ROOK

/-- The full standard layout map (spec 3, Board lifecycle). -/
def standardLayout (sq : BoardSquare) : Option ChessPiece :=
  match sq.rank with
  | .R1 => some ⟨backRankPiece sq.file, .WHITE⟩
  | .R2 => some ⟨.PAWN, .WHITE⟩
  | .R7 => some ⟨.PAWN, .BLACK⟩
  | .R8 => some ⟨backRankPiece sq.file, .BLACK⟩
  | _ => none

/-- Number of occupied squares of a board. -/
def occupiedCount (board : ChessBoard) : Nat :=
  (Finset.univ.filter fun sq => (board.pieces sq).isSome).card

/-- Number of squares holding a piece satisfying a predicate. -/
def countPieces (board : ChessBoard) (p : ChessPiece → Bool) : Nat :=
  (Finset.univ.filter fun sq => (board.pieces sq).any p).card

/-! ## Helper lemmas -/

theorem charToFile_fileChar (f : FileType) : charToFile (fileChar f) = some f := by
  cases f <;> rfl

theorem charToRank_rankChar (r : RankType) : charToRank (rankChar r) = some r := by
  cases r <;> rfl

theorem charToFile_eq_some {c : Char} {f : FileType}
    (h : charToFile c = some f) : fileChar f = c := by
  unfold charToFile at h
  split_ifs at h <;> simp_all <;> subst h <;> rfl

theorem charToRank_eq_some {c : Char} {r : RankType}
    (h : charToRank c = some r) : rankChar r = c := by
  unfold charToRank at h
  split_ifs at h <;> simp_all <;> subst h <;> rfl

/-- C6: parsing the two-character rendering of any valid square yields the
square back, and every string that is not the rendering of some square is
rejected with an explicit failure (the `none` result standing for the
`InvalidSquare` failure kind), never an uncaught fault. -/
theorem parse_format_square_roundtrip :
    (∀ sq : BoardSquare,
      convert_input_to_board_square (reprSquare sq) = some sq) ∧
    (∀ pos : String, (∀ sq : BoardSquare, pos ≠ reprSquare sq) →
      convert_input_to_board_square pos = none) := by
  constructor
  · decide
  · intro pos h
    by_contra hne
    obtain ⟨sq, hsq⟩ : ∃ sq, convert_input_to_board_square pos = some sq := by
      cases hcv : convert_input_to_board_square pos with
      | none => exact absurd hcv hne
      | some sq => exact ⟨sq, rfl⟩
    refine h sq ?_
    unfold convert_input_to_board_square at hsq
    obtain ⟨data⟩ := pos
    match data, hsq with
    | [c0, c1], hsq =>
      cases hf : charToFile c0 with
      | none => simp [hf] at hsq
      | some f =>
        cases hr : charToRank c1 with
        | none => simp [hf, hr] at hsq
        | some r =>
          simp only [hf, hr] at hsq
          cases hsq
          simp [reprSquare, charToFile_eq_some hf, charToRank_eq_some hr]

/-- C6 witness: a concrete valid square round-trips, and a concrete
malformed input is rejected. -/
theorem parse_format_square_roundtrip_witness :
    convert_input_to_board_square (reprSquare ⟨.E, .R4⟩)
        = some ⟨.E, .R4⟩ ∧
    convert_input_to_board_square "Z9" = none ∧
    convert_input_to_board_square "E44" = none := by
  refine ⟨parse_format_square_roundtrip.1 ⟨.E, .R4⟩,
    parse_format_square_roundtrip.2 "Z9" (by decide),
    parse_format_square_roundtrip.2 "E44" (by decide)⟩

/-- C5: for a pawn of either color, the shape predicate holds exactly when
the move is a same-file advance whose ranks are 2 to 4, 7 to 5, or one
apart, or a one-square diagonal step; the predicate never consults the
pawn's color. -/
theorem pawn_shape_characterization :
    ∀ (color : ChessPieceColor) (move : Move),
      (ChessPiece.mk ChessPieceType.PAWN color).can_make_move move = true
        ↔ pawnShapeSpec move := by
  intro color move
  show ChessPiece._can_pawn_move ⟨.PAWN, color⟩ move = true ↔ pawnShapeSpec move
  simp only [ChessPiece._can_pawn_move, pawnShapeSpec, Bool.or_eq_true,
    Bool.and_eq_true, beq_iff_eq]
  tauto

/-- C7: `join` checks, in order, the invite secret, fullness, and prior
membership, and otherwise fills exactly the first empty slot (white
checked first) with the joining user id and changes nothing else — it
returns exactly the outcome prescribed by the spec transcription
`joinSpec`. -/
theorem join_matches_spec :
    ∀ (game : ChessGame) (joining_user_id supplied_secret : String),
      join game joining_user_id supplied_secret
        = joinSpec game joining_user_id supplied_secret := by
  intro game joining_user_id supplied_secret
  unfold join joinSpec
  split_ifs with h1 h2 h3 h4 h5 h6 h7 h8 <;>
    simp_all [Option.isSome_iff_ne_none, ne_comm]

/-- C8: resetting any board installs exactly the standard 32-piece opening
layout, discarding every prior piece: the resulting map equals the
spec-transcribed `standardLayout` (White on ranks 1-2, Black on ranks 7-8)
and has 32 occupied squares, 16 per color, distributed 8 pawns, 2 rooks,
2 knights, 2 bishops, 1 queen and 1 king per color. -/
theorem reset_installs_standard_position :
    ∀ board : ChessBoard,
      board.reset_to_starting_position.pieces = standardLayout ∧
      occupiedCount board.reset_to_starting_position = 32 ∧
      countPieces board.reset_to_starting_position
        (fun pc => pc.color == .WHITE) = 16 ∧
      countPieces board.reset_to_starting_position
        (fun pc => pc.color == .BLACK) = 16 ∧
      (∀ color : ChessPieceColor,
        countPieces board.reset_to_starting_position
          (fun pc => pc.color == color && pc.piece_type == .PAWN) = 8 ∧
        countPieces board.reset_to_starting_position
          (fun pc => pc.color == color && pc.piece_type == .ROOK) = 2 ∧
        countPieces board.reset_to_starting_position
          (fun pc => pc.color == color && pc.piece_type == .KNIGHT) = 2 ∧
        countPieces board.reset_to_starting_position
          (fun pc => pc.color == color && pc.piece_type == .BISHOP) = 2 ∧
        countPieces board.reset_to_starting_position
          (fun pc => pc.color == color && pc.piece_type == .QUEEN) = 1 ∧
        countPieces board.reset_to_starting_position
          (fun pc => pc.color == color && pc.piece_type == .KING) = 1) := by
  intro board
  have hreset : board.reset_to_starting_position
      = ChessBoard.mk STARTING_POSITION := rfl
  rw [hreset]
  refine ⟨funext fun sq => ?_, ?_, ?_, ?_, fun color => ?_⟩
  · revert sq; decide
  · decide
  · decide
  · decide
  · cases color <;> exact ⟨by decide, by decide, by decide, by decide,
      by decide, by decide⟩

/-- C2: whenever all six checks pass — the mover holds a slot, the mover's
color is the turn color, the source square holds a piece of that color, the
destination is unoccupied and the move is shape-legal — `attempt_move`
removes the piece from the source square, places that same piece on the
destination, appends exactly the applied move to the history, flips
`next_turn` and returns the move. -/
theorem attempt_move_success_applies (g : ChessGame) (mover : String)
    (sf st : BoardSquare) (piece : ChessPiece)
    (hslot : g.white_user_id = some mover ∨ g.black_user_id = some mover)
    (hturn : g.get_user_color mover = some g.next_turn)
    (hsrc : g.board.get_piece_on_square sf = some piece)
    (hcolor : piece.color = g.next_turn)
    (hdest : g.board.get_piece_on_square st = none)
    (hshape : piece.can_make_move ⟨sf, st, piece⟩ = true) :
    attempt_move g mover sf st =
      some ({ g with
          board := ⟨fun sq => if sq = st then some piece
            else if sq = sf then none else g.board.pieces sq⟩,
          move_history := g.move_history ++ [⟨sf, st, piece⟩],
          next_turn := if g.next_turn = ChessPieceColor.BLACK
            then ChessPieceColor.WHITE else ChessPieceColor.BLACK },
        .ok ⟨sf, st, piece⟩) := by
  have hno : ¬(g.white_user_id ≠ some mover ∧ g.black_user_id ≠ some mover) := by
    rcases hslot with h | h <;> simp [h]
  unfold attempt_move ChessGame.move_piece
  rw [if_neg hno, hturn]
  simp only [hsrc, hdest, hcolor, hshape, ne_eq, not_true_eq_false,
    not_false_eq_true, if_false, ite_false, ite_self]
  simp [ChessBoard.set_piece, ChessBoard.remove_piece]

/-- C2 witness: on the freshly created and reset game, White playing the
pawn from E2 to E4 succeeds, returns the applied move, flips the turn to
BLACK and leaves exactly one history entry. -/
theorem attempt_move_success_applies_witness :
    (attempt_move freshGame uWhite ⟨.E, .R2⟩ ⟨.E, .R4⟩).map
        (fun r => (r.1.next_turn, r.1.move_history, r.2,
          r.1.board.pieces ⟨.E, .R2⟩, r.1.board.pieces ⟨.E, .R4⟩))
      = some (ChessPieceColor.BLACK,
          [⟨⟨.E, .R2⟩, ⟨.E, .R4⟩, ⟨.PAWN, .WHITE⟩⟩],
          Except.ok ⟨⟨.E, .R2⟩, ⟨.E, .R4⟩, ⟨.PAWN, .WHITE⟩⟩,
          none, some ⟨.PAWN, .WHITE⟩) := by
  rw [attempt_move_success_applies freshGame uWhite ⟨.E, .R2⟩ ⟨.E, .R4⟩
    ⟨.PAWN, .WHITE⟩ (by decide) (by decide) (by decide) (by decide)
    (by decide) (by decide)]
  rfl

theorem attempt_move_error_unchanged {g : ChessGame} {mover : String}
    {sf st : BoardSquare} {g2 : ChessGame} {k : MoveFailure}
    (h : attempt_move g mover sf st = some (g2, .error k)) : g2 = g := by
  unfold attempt_move ChessGame.move_piece at h
  dsimp only at h
  repeat' split at h
  all_goals simp_all

theorem get_user_color_none {g : ChessGame} {u : String}
    (hw : g.white_user_id ≠ some u) (hb : g.black_user_id ≠ some u) :
    g.get_user_color u = none := by
  unfold ChessGame.get_user_color
  rw [if_neg hw, if_neg hb]

theorem get_user_color_isSome {g : ChessGame} {u : String}
    (h : ¬(g.white_user_id ≠ some u ∧ g.black_user_id ≠ some u)) :
    ∃ c, g.get_user_color u = some c := by
  unfold ChessGame.get_user_color
  by_cases hw : g.white_user_id = some u
  · rw [if_pos hw]; exact ⟨_, rfl⟩
  · rcases not_and_or.mp h with h | h
    · exact absurd (not_ne_iff.mp h) hw
    · rw [if_neg hw, if_pos (not_ne_iff.mp h)]; exact ⟨_, rfl⟩

/-- The central correspondence: the outcome of `attempt_move` is exactly
the first failing check of the spec's ordered list (and success when none
fails), and an uncaught fault never occurs. -/
theorem attempt_move_outcome (g : ChessGame) (mover : String)
    (sf st : BoardSquare) :
    outcomeKind (attempt_move g mover sf st)
      = some (firstFailingCheck g mover sf st) := by
  by_cases h1 : g.white_user_id ≠ some mover ∧ g.black_user_id ≠ some mover
  · unfold attempt_move firstFailingCheck
    rw [if_pos h1, get_user_color_none h1.1 h1.2]
    rfl
  · obtain ⟨c, hc⟩ := get_user_color_isSome h1
    unfold attempt_move firstFailingCheck
    rw [if_neg h1]
    simp only [hc]
    by_cases ht : c = g.next_turn
    · simp only [ht, ne_eq, not_true_eq_false, if_false, ite_false]
      cases hp : g.board.get_piece_on_square sf with
      | none => rfl
      | some piece =>
        by_cases hcol : piece.color = g.next_turn
        · simp only [hcol, ne_eq, not_true_eq_false, if_false, ite_false]
          cases hq : g.board.get_piece_on_square st with
          | some other => simp [outcomeKind]
          | none =>
            simp only [Option.isSome_none, Bool.false_eq_true, if_false,
              ite_false]
            by_cases hshape :
                piece.can_make_move ⟨sf, st, piece⟩ = true
            · simp only [hshape, not_true_eq_false, if_false, ite_false]
              unfold ChessGame.move_piece
              rw [hp]
              simp [outcomeKind]
            · simp [hshape, outcomeKind]
        · simp [hcol, outcomeKind]
    · simp [ht, outcomeKind]

theorem firstFailingCheck_noop {g : ChessGame} {mover : String}
    {sf : BoardSquare} :
    firstFailingCheck g mover sf sf ≠ none := by
  unfold firstFailingCheck
  cases hc : g.get_user_color mover with
  | none => simp
  | some c =>
    by_cases ht : c = g.next_turn
    · subst ht
      simp only [ne_eq, not_true_eq_false, if_false, ite_false]
      cases hp : g.board.get_piece_on_square sf with
      | none => simp
      | some piece =>
        by_cases hcol : piece.color = g.next_turn
        · simp [hp, hcol]
        · simp [hcol]
    · simp [ht]

/-- C4: `attempt_move` is atomic on failure — whatever check fails, the
game handed back for persistence is exactly the input game, every field
included. -/
theorem attempt_move_failure_atomic :
    ∀ (g : ChessGame) (mover : String) (sf st : BoardSquare)
      (g2 : ChessGame) (k : MoveFailure),
      attempt_move g mover sf st = some (g2, .error k) → g2 = g := by
  intro g mover sf st g2 k h
  exact attempt_move_error_unchanged h

/-- C4 witness: a non-player's attempt fails with `NotAPlayer` and hands
back the untouched game. -/
theorem attempt_move_failure_atomic_witness :
    attempt_move freshGame "intruder" ⟨.E, .R2⟩ ⟨.E, .R4⟩
        = some (freshGame, .error .NotAPlayer) ∧ freshGame = freshGame :=
  ⟨rfl, attempt_move_failure_atomic freshGame "intruder" ⟨.E, .R2⟩ ⟨.E, .R4⟩
    freshGame .NotAPlayer rfl⟩

/-- C9 counterexample: on the fresh game, White attempting E7 to E7 passes
the player, turn and source-occupancy checks (E7 holds the black pawn),
yet fails with `WrongColorPiece`, not `SquareOccupied` — the piece-color
check precedes the occupancy check, so the claim as stated is false. -/
theorem noop_move_counterexample :
    freshGame.white_user_id = some uWhite ∧
    freshGame.get_user_color uWhite = some freshGame.next_turn ∧
    (freshGame.board.get_piece_on_square ⟨.E, .R7⟩).isSome = true ∧
    attempt_move freshGame uWhite ⟨.E, .R7⟩ ⟨.E, .R7⟩
        = some (freshGame, .error .WrongColorPiece) ∧
    MoveFailure.WrongColorPiece ≠ MoveFailure.SquareOccupied :=
  ⟨rfl, rfl, rfl, rfl, by decide⟩

/-- C9 (amended): a move attempt whose source and destination squares are
equal never succeeds; when additionally the piece-color check passes (the
mover may move, and the source square holds a piece of the mover's color),
it fails with `SquareOccupied` and leaves the game unchanged. -/
theorem noop_move_never_succeeds :
    ∀ (g : ChessGame) (mover : String) (sf : BoardSquare)
      (g2 : ChessGame) (r : Except MoveFailure Move),
      attempt_move g mover sf sf = some (g2, r) →
      (∀ mv : Move, r ≠ .ok mv) ∧
      (∀ piece : ChessPiece,
        g.get_user_color mover = some g.next_turn →
        g.board.get_piece_on_square sf = some piece →
        piece.color = g.next_turn →
        r = .error .SquareOccupied ∧ g2 = g) := by
  intro g mover sf g2 r h
  have hout := attempt_move_outcome g mover sf sf
  rw [h] at hout
  constructor
  · intro mv hmv
    subst hmv
    simp only [outcomeKind, Option.some.injEq] at hout
    exact firstFailingCheck_noop hout.symm
  · intro piece hcu hp hcol
    have hff : firstFailingCheck g mover sf sf = some .SquareOccupied := by
      unfold firstFailingCheck
      simp [hcu, hp, hcol]
    rw [hff] at hout
    cases r with
    | ok mv => simp [outcomeKind] at hout
    | error k =>
      simp only [outcomeKind, Option.some.injEq] at hout
      subst hout
      exact ⟨rfl, attempt_move_error_unchanged h⟩

/-- C9 witness: White attempting E2 to E2 on the fresh game passes the
player, turn, source-occupancy and piece-color checks and fails with
`SquareOccupied`, leaving the game unchanged. -/
theorem noop_move_never_succeeds_witness :
    attempt_move freshGame uWhite ⟨.E, .R2⟩ ⟨.E, .R2⟩
        = some (freshGame, .error .SquareOccupied) ∧
    (Except.error .SquareOccupied : Except MoveFailure Move)
        = .error .SquareOccupied ∧ freshGame = freshGame := by
  have h := noop_move_never_succeeds freshGame uWhite ⟨.E, .R2⟩ freshGame
    (.error .SquareOccupied) rfl
  exact ⟨rfl, h.2 ⟨.PAWN, .WHITE⟩ rfl rfl rfl⟩

/-- C3: the outcome of `attempt_move` is exactly the first failing check of
the spec's six ordered checks (success when none fails); in particular,
once the player, turn, source and piece-color checks pass, a destination
square holding any piece — own or enemy — fails with `SquareOccupied`
irrespective of shape legality, leaving the game unchanged. -/
theorem attempt_move_checks_in_order :
    ∀ (g : ChessGame) (mover : String) (sf st : BoardSquare),
      outcomeKind (attempt_move g mover sf st)
        = some (firstFailingCheck g mover sf st) ∧
      (∀ piece destPiece : ChessPiece,
        g.get_user_color mover = some g.next_turn →
        g.board.get_piece_on_square sf = some piece →
        piece.color = g.next_turn →
        g.board.get_piece_on_square st = some destPiece →
        attempt_move g mover sf st = some (g, .error .SquareOccupied)) := by
  intro g mover sf st
  refine ⟨attempt_move_outcome g mover sf st, ?_⟩
  intro piece destPiece hcu hp hcol hq
  have hff : firstFailingCheck g mover sf st = some .SquareOccupied := by
    unfold firstFailingCheck
    simp [hcu, hp, hcol, hq]
  have hout := attempt_move_outcome g mover sf st
  rw [hff] at hout
  cases hX : attempt_move g mover sf st with
  | none => rw [hX] at hout; simp [outcomeKind] at hout
  | some res =>
    obtain ⟨g2, r⟩ := res
    rw [hX] at hout
    cases r with
    | ok mv => simp [outcomeKind] at hout
    | error k =>
      simp only [outcomeKind, Option.some.injEq] at hout
      subst hout
      rw [attempt_move_error_unchanged hX]

/-- C3 witness: on the fresh game, B1 to B2 (a knight move that is not
shape-legal, onto the own pawn) fails with `SquareOccupied`: the occupancy
check fires before the shape check. -/
theorem attempt_move_checks_in_order_witness :
    attempt_move freshGame uWhite ⟨.B, .R1⟩ ⟨.B, .R2⟩
        = some (freshGame, .error .SquareOccupied) :=
  (attempt_move_checks_in_order freshGame uWhite ⟨.B, .R1⟩ ⟨.B, .R2⟩).2
    ⟨.KNIGHT, .WHITE⟩ ⟨.PAWN, .WHITE⟩ rfl rfl rfl rfl

theorem attempt_move_ok_inv {g : ChessGame} {mover : String}
    {sf st : BoardSquare} {g2 : ChessGame} {mv : Move}
    (h : attempt_move g mover sf st = some (g2, .ok mv)) :
    mv = ⟨sf, st, mv.chess_piece⟩ ∧
    g.board.get_piece_on_square sf = some mv.chess_piece ∧
    g.board.get_piece_on_square st = none ∧
    g2 = { g with
      board := ⟨fun sq => if sq = st then some mv.chess_piece
        else if sq = sf then none else g.board.pieces sq⟩,
      move_history := g.move_history ++ [mv],
      next_turn := if g.next_turn = ChessPieceColor.BLACK
        then ChessPieceColor.WHITE else ChessPieceColor.BLACK } := by
  unfold attempt_move ChessGame.move_piece at h
  dsimp only at h
  repeat' split at h
  all_goals try (simp_all [ChessBoard.set_piece, ChessBoard.remove_piece]; done)
  simp only [Option.some.injEq, Prod.mk.injEq, Except.ok.injEq] at h
  obtain ⟨hupd, hmv⟩ := h
  subst hupd
  subst hmv
  simp_all [ChessBoard.set_piece, ChessBoard.remove_piece]

theorem occupiedCount_swap (b : ChessBoard) (sf st : BoardSquare)
    (p : ChessPiece) (hsrc : b.pieces sf = some p)
    (hdst : b.pieces st = none) :
    occupiedCount ⟨fun sq => if sq = st then some p
      else if sq = sf then none else b.pieces sq⟩ = occupiedCount b := by
  have hne : sf ≠ st := fun hEq => by rw [hEq, hdst] at hsrc; cases hsrc
  have hne2 : st ≠ sf := Ne.symm hne
  unfold occupiedCount
  refine Finset.card_bij'
    (fun a _ => if a = sf then st else if a = st then sf else a)
    (fun a _ => if a = sf then st else if a = st then sf else a)
    ?_ ?_ ?_ ?_ <;>
  · intro a ha
    simp only [Finset.mem_filter, Finset.mem_univ, true_and] at ha ⊢
    by_cases h1 : a = sf <;> by_cases h2 : a = st <;>
      simp_all [hsrc, hdst, hne, hne2]

/-- C10: a successful move changes the board only at its two named
squares, preserves the number of occupied squares, and leaves `game_id`,
`invite_secret` and both user-id slots untouched. -/
theorem attempt_move_success_frame :
    ∀ (g : ChessGame) (mover : String) (sf st : BoardSquare)
      (g2 : ChessGame) (mv : Move),
      attempt_move g mover sf st = some (g2, .ok mv) →
      (∀ sq : BoardSquare, sq ≠ sf → sq ≠ st →
        g2.board.pieces sq = g.board.pieces sq) ∧
      occupiedCount g2.board = occupiedCount g.board ∧
      g2.game_id = g.game_id ∧
      g2.invite_secret = g.invite_secret ∧
      g2.white_user_id = g.white_user_id ∧
      g2.black_user_id = g.black_user_id := by
  intro g mover sf st g2 mv h
  obtain ⟨hmv, hsrc, hdst, hg2⟩ := attempt_move_ok_inv h
  subst hg2
  refine ⟨?_, ?_, rfl, rfl, rfl, rfl⟩
  · intro sq h1 h2
    simp [h1, h2]
  · exact occupiedCount_swap g.board sf st mv.chess_piece hsrc hdst

/-- C10 witness: the concrete E2 to E4 move touches only E2 and E4, keeps
32 squares occupied and leaves identity, secret and slots unchanged. -/
theorem attempt_move_success_frame_witness :
    (attempt_move freshGame uWhite ⟨.E, .R2⟩ ⟨.E, .R4⟩).map
        (fun r => (r.1.board.pieces ⟨.D, .R2⟩, occupiedCount r.1.board,
          r.1.game_id, r.1.invite_secret, r.1.white_user_id,
          r.1.black_user_id))
      = some (freshGame.board.pieces ⟨.D, .R2⟩, occupiedCount freshGame.board,
          freshGame.game_id, freshGame.invite_secret,
          freshGame.white_user_id, freshGame.black_user_id) := by
  have hFF : firstFailingCheck freshGame uWhite ⟨.E, .R2⟩ ⟨.E, .R4⟩
      = none := by decide
  have hout := attempt_move_outcome freshGame uWhite ⟨.E, .R2⟩ ⟨.E, .R4⟩
  rw [hFF] at hout
  cases hX : attempt_move freshGame uWhite ⟨.E, .R2⟩ ⟨.E, .R4⟩ with
  | none => rw [hX] at hout; simp [outcomeKind] at hout
  | some res =>
    obtain ⟨g2, r⟩ := res
    rw [hX] at hout
    cases r with
    | error k => simp [outcomeKind] at hout
    | ok mv =>
      have hframe := attempt_move_success_frame freshGame uWhite
        ⟨.E, .R2⟩ ⟨.E, .R4⟩ g2 mv hX
      obtain ⟨hboard, hcount, hid, hsec, hw, hb⟩ := hframe
      show some (g2.board.pieces ⟨.D, .R2⟩, occupiedCount g2.board,
        g2.game_id, g2.invite_secret, g2.white_user_id, g2.black_user_id) = _
      rw [hboard ⟨.D, .R2⟩ (by decide) (by decide), hcount, hid, hsec, hw, hb]

theorem pieceOfJson_pieceToJson (p : ChessPiece) :
    pieceOfJson (pieceToJson p) = some p := by
  obtain ⟨t, c⟩ := p
  cases t <;> cases c <;> rfl

theorem squareOfKey_reprSquare (sq : BoardSquare) :
    squareOfKey (reprSquare sq) = some sq := by
  obtain ⟨f, r⟩ := sq
  show squareOfKey ⟨[fileChar f, rankChar r]⟩ = some ⟨f, r⟩
  unfold squareOfKey
  dsimp only
  rw [charToFile_fileChar, charToRank_rankChar]

theorem moveOfJson_moveToJson (m : Move) :
    moveOfJson (moveToJson m) = some m := by
  obtain ⟨sf, st, p⟩ := m
  unfold moveOfJson moveToJson
  simp [jGet, squareOfKey_reprSquare, pieceOfJson_pieceToJson]

theorem movesOfJson_map (moves : List Move) :
    movesOfJson (moves.map moveToJson) = some moves := by
  induction moves with
  | nil => rfl
  | cons m t ih => simp [movesOfJson, moveOfJson_moveToJson, ih]

theorem ofValue_color_value (c : ChessPieceColor) :
    ChessPieceColor.ofValue c.value = some c := by
  cases c <;> rfl

theorem userOfJson_optUserToJson (u : Option String) (hu : u ≠ some "") :
    userOfJson (optUserToJson u) = some u := by
  cases u with
  | none => rfl
  | some s =>
    have hs : ¬s = "" := fun h => hu (by rw [h])
    simp [userOfJson, optUserToJson, hs]

theorem piecesOfJson_entries (b : BoardSquare → Option ChessPiece)
    (l : List BoardSquare) (acc : BoardSquare → Option ChessPiece) :
    piecesOfJson acc (l.filterMap fun sq =>
        (b sq).map fun piece => (reprSquare sq, pieceToJson piece))
      = some (fun s => if s ∈ l ∧ (b s).isSome then b s else acc s) := by
  induction l generalizing acc with
  | nil =>
    simp only [List.filterMap_nil, piecesOfJson]
    exact congrArg some (funext fun s => by simp)
  | cons sq t ih =>
    cases hb : b sq with
    | none =>
      simp only [List.filterMap_cons, hb, Option.map_none']
      rw [ih]
      congr 1
      funext s
      by_cases hs : s = sq
      · subst hs
        simp [hb]
      · simp [hs, List.mem_cons]
    | some piece =>
      simp only [List.filterMap_cons, hb, Option.map_some']
      simp only [piecesOfJson, squareOfKey_reprSquare, pieceOfJson_pieceToJson]
      rw [ih]
      congr 1
      funext s
      by_cases hs : s = sq
      · subst hs
        by_cases hmem : s ∈ t <;> simp_all
      · simp [hs, List.mem_cons]

theorem mem_allSquares : ∀ sq : BoardSquare, sq ∈ allSquares := by decide

theorem piecesOfJson_boardPiecesJson (b : ChessBoard) :
    piecesOfJson (fun _ => none) (boardPiecesJson b) = some b.pieces := by
  unfold boardPiecesJson
  rw [piecesOfJson_entries]
  congr 1
  funext s
  simp only [mem_allSquares s, true_and]
  cases b.pieces s <;> simp

/-- C1: decoding the encoding of any game whose user-id slots are not the
empty string (every reachable game: real user ids are non-empty UUID
strings) yields a game field-wise equal to the original — same `game_id`,
board mapping, move history in order, white/black slots (set or unset),
`invite_secret` and `next_turn`. -/
theorem serialize_deserialize_roundtrip :
    ∀ g : ChessGame, g.white_user_id ≠ some "" → g.black_user_id ≠ some "" →
      deserialize (serialize g) = some g := by
  intro g hw hb
  obtain ⟨gid, board, hist, w, bl, secret, turn⟩ := g
  simp only at hw hb
  unfold serialize deserialize
  simp only [jGet, String.reduceEq, reduceIte]
  rw [piecesOfJson_boardPiecesJson, movesOfJson_map,
    userOfJson_optUserToJson w hw, userOfJson_optUserToJson bl hb,
    ofValue_color_value]

/-- C1 witness: the fresh game has non-empty user-id slots and survives the
encode/decode round trip. -/
theorem serialize_deserialize_roundtrip_witness :
    freshGame.white_user_id ≠ some "" ∧ freshGame.black_user_id ≠ some "" ∧
    deserialize (serialize freshGame) = some freshGame :=
  ⟨by decide, by decide,
    serialize_deserialize_roundtrip freshGame (by decide) (by decide)⟩
